import Mathlib

/-!
Shallow embedding of the callout-pip-alert incident pipeline.

Covered source files:
* packages/functions/src/handlers/alarm-handler.ts — alarm ingestion
  (record loop, team and on-call resolution, incident creation, severity).
* the APNs library (sendPushNotification, getApnsConfig) — push delivery
  and the credential cache.
* the demo sequence orchestrator (startDemoSequence, stopDemoSequence,
  addAndTrack, teammateAck, autoResolve, clearAllTimers) — timer-driven
  demo game.

JavaScript effects are made explicit: environment records supply the
results of nondeterministic calls (Date.now, Math.random, randomUUID,
network responses, database query results), exceptions become Except,
and the timer queue of the event loop is a list of pending (id, callback)
pairs on which callbacks may fire in any order.
-/

namespace PipAlert

/-! ## Alarm ingestion (alarm-handler.ts) -/

/-- The CloudWatchAlarmMessage shape from alarm-handler.ts. The cast in the
source is unchecked, so NewStateValue is kept as a plain string. -/
structure CloudWatchAlarmMessage where
  AlarmName : String
  AlarmArn : String
  NewStateValue : String
  NewStateReason : String
  StateChangeTime : String
  Region : String
  AWSAccountId : String
deriving DecidableEq, Repr

structure TimelineEntry where
  timestamp : Nat
  event : String
  actor : String
  note : Option String
deriving DecidableEq, Repr

structure Incident where
  incident_id : String
  team_id : String
  alarm_arn : String
  alarm_name : String
  state : String
  severity : String
  assigned_to : String
  escalation_level : Nat
  triggered_at : Nat
  ttl : Nat
  timeline : List TimelineEntry
deriving DecidableEq, Repr

structure Team where
  team_id : String
  aws_account_ids : List String
deriving DecidableEq, Repr

/-- A schedule slot; the source field named end is a Lean keyword. -/
structure Schedule where
  team_id : String
  slot_id : String
  user_id : String
  start : Nat
  «end» : Nat
deriving DecidableEq, Repr

/-- JavaScript toLowerCase restricted to the per-character map. -/
def lowerStr (s : String) : String :=
  String.mk (s.data.map Char.toLower)

/-- JavaScript String.prototype.includes: contiguous-substring test. -/
def listIsInfixOf (pat : List Char) : List Char → Bool
  | [] => pat.isEmpty
  | c :: rest => pat.isPrefixOf (c :: rest) || listIsInfixOf pat rest

def strIncludes (s pat : String) : Bool :=
  listIsInfixOf pat.data s.data

/-- determineSeverity from alarm-handler.ts. -/
def determineSeverity (alarmName : String) : String :=
  let lowerName := lowerStr alarmName
  if strIncludes lowerName ("critical") || strIncludes lowerName ("error") then
    "critical"
  else if strIncludes lowerName ("warning") || strIncludes lowerName ("warn") then
    "warning"
  else
    "info"

/-- findOnCallUser from alarm-handler.ts, applied to the ordered list of
schedule items the table query returns for the team. The filter expression
is start <= now AND end > now; the first item is taken and the JavaScript
expression (slot?.user_id || null) collapses an empty user_id to null. -/
def findOnCallUser (schedules : List Schedule) (now : Nat) : Option String :=
  let matching := schedules.filter (fun s => s.start ≤ now && now < s.«end»)
  match matching.head? with
  | none => none
  | some slot => if slot.user_id = "" then none else some slot.user_id

/-- findTeamByAwsAccount from alarm-handler.ts: scan with a containment
filter, first item or null. -/
def findTeamByAwsAccount (teams : List Team) (accountId : String) : Option Team :=
  (teams.filter (fun t => t.aws_account_ids.contains accountId)).head?

/-- One inbound record: either its Sns.Message parses as JSON (the unchecked
cast then yields a CloudWatchAlarmMessage) or JSON.parse throws. -/
inductive SnsRecord where
  | malformed
  | msg (m : CloudWatchAlarmMessage)
deriving DecidableEq, Repr

/-- Environment for one handler invocation: table contents in scan order,
the clock, whether the incident put throws, and the value randomUUID
produces for a created incident. -/
structure AlarmEnv where
  teams : List Team
  schedules : String → List Schedule
  now : Nat
  putFails : Incident → Bool
  uuid : String

/-- The incident built by the handler for a message, team and on-call user:
triggered_at is epoch milliseconds, ttl is epoch seconds plus 24 hours. -/
def mkIncident (env : AlarmEnv) (m : CloudWatchAlarmMessage) (team : Team)
    (onCallUserId : String) : Incident :=
  { incident_id := env.uuid
    team_id := team.team_id
    alarm_arn := m.AlarmArn
    alarm_name := m.AlarmName
    state := "triggered"
    severity := determineSeverity m.AlarmName
    assigned_to := onCallUserId
    escalation_level := 0
    triggered_at := env.now
    ttl := env.now / 1000 + 24 * 60 * 60
    timeline := [{ timestamp := env.now, event := "triggered",
                   actor := "CloudWatch", note := some m.NewStateReason }] }

/-- Observable outcome of processing one record. -/
inductive RecordOutcome where
  | ignoredState (v : String)
  | noTeam
  | noOnCall
  | created (inc : Incident)
  | caught (e : String)
deriving DecidableEq, Repr

/-- The body of the per-record try block: parse, state filter, team and
on-call resolution, incident creation and persistence. Throws surface as
Except.error. -/
def processRecordCore (env : AlarmEnv) : SnsRecord → Except String RecordOutcome
  | .malformed => .error "JSON.parse"
  | .msg m =>
    if m.NewStateValue ≠ "ALARM" then
      .ok (.ignoredState m.NewStateValue)
    else
      match findTeamByAwsAccount env.teams m.AWSAccountId with
      | none => .ok .noTeam
      | some team =>
        match findOnCallUser (env.schedules team.team_id) env.now with
        | none => .ok .noOnCall
        | some onCallUserId =>
          let inc := mkIncident env m team onCallUserId
          if env.putFails inc then .error "put" else .ok (.created inc)

/-- One loop iteration: the try/catch turns every throw into a logged
outcome and the loop continues. -/
def recordStep (env : AlarmEnv) (r : SnsRecord) : RecordOutcome :=
  match processRecordCore env r with
  | .ok o => o
  | .error e => .caught e

/-- The handler: process every record of the batch in order. -/
def handler (env : AlarmEnv) (records : List SnsRecord) : List RecordOutcome :=
  records.map (recordStep env)

/-- The incidents the batch writes to the store, in order. -/
def writes (env : AlarmEnv) (records : List SnsRecord) : List Incident :=
  (handler env records).filterMap (fun o =>
    match o with
    | .created inc => some inc
    | _ => none)

/-! ## Push delivery (the APNs library) -/

structure Device where
  user_id : String
  device_token : String
  platform : String
  sandbox : Bool
  created_at : Nat
deriving DecidableEq, Repr

structure ApnsConfig where
  key : String
  keyId : String
  teamId : String
  bundleId : String
deriving DecidableEq, Repr

structure PushNotification where
  title : String
  body : String
  sound : Option String
  interruptionLevel : Option String
  badge : Option Nat
deriving DecidableEq, Repr

/-- What the secret-store call does on one attempt: throw, return no
SecretString, return a string JSON.parse rejects, or return a string that
parses to a config. -/
inductive FetchOutcome where
  | err
  | noSecret
  | badJson
  | secret (cfg : ApnsConfig)
deriving DecidableEq, Repr

/-- getApnsConfig as a state transformer on the module-level cache
cachedApnsConfig. Result: (returned value, cache afterwards, whether the
secret store was contacted). A cache hit returns immediately; a successful
fetch fills the cache; every failure path leaves the cache null and
returns null. -/
def getApnsConfig (fetch : FetchOutcome) (cache : Option ApnsConfig) :
    Option ApnsConfig × Option ApnsConfig × Bool :=
  match cache with
  | some c => (some c, some c, false)
  | none =>
    match fetch with
    | .secret cfg => (some cfg, some cfg, true)
    | _ => (none, none, true)

/-- Run a sequence of getApnsConfig calls, threading the cache, listing
each call's (returned value, contacted) pair. -/
def runConfigCalls (cache : Option ApnsConfig) :
    List FetchOutcome → List (Option ApnsConfig × Bool)
  | [] => []
  | f :: rest =>
    let r := getApnsConfig f cache
    (r.1, r.2.2) :: runConfigCalls r.2.1 rest

/-- The value JSON.parse gives for a gateway response body, as far as the
dispatcher inspects it: just the reason field, absent when undefined. -/
structure ParsedBody where
  reason : Option String
deriving DecidableEq, Repr

/-- JavaScript (x || d) on an optional string: undefined and the empty
string are falsy. -/
def jsOrElse (x : Option String) (d : String) : String :=
  match x with
  | some s => if s = "" then d else s
  | none => d

/-- The winning network event of one delivery attempt, first resolve wins:
a connection-level error, a request stream error, or a headers/body
response from the gateway. -/
inductive NetOutcome where
  | connError (m : String)
  | reqError (m : String)
  | response (status : Nat) (body : String)
deriving DecidableEq, Repr

structure PushResult where
  success : Bool
  error : Option String
deriving DecidableEq, Repr

/-- Which side calls the dispatcher performed before returning. -/
structure Effects where
  fetchedConfig : Bool
  mintedToken : Bool
  openedConnection : Bool
deriving DecidableEq, Repr

/-- Response classification inside sendPushNotification, as a function of
the final status and accumulated body, parameterised by JSON.parse
(parse b = none when JSON.parse throws on b). Status 200 resolves success
from the response event. Otherwise only the end event can resolve, and it
resolves only when responseData is non-empty; an empty body therefore
yields no classification at all (the promise never settles), which the
model records as none. -/
def classifyResponse (parse : String → Option ParsedBody) (status : Nat)
    (body : String) : Option PushResult :=
  if status = 200 then
    some { success := true, error := none }
  else if body ≠ "" then
    match parse body with
    | some p => some { success := false, error := some (jsOrElse p.reason ("Unknown error")) }
    | none => some { success := false, error := some body }
  else
    none

/-- sendPushNotification. Returns (classification, cache afterwards,
effects). The classification is none exactly when the promise never
resolves. The JWT mint and the payload build carry no information the
claims consult, so only their occurrence is recorded in Effects. -/
def sendPushNotification (parse : String → Option ParsedBody)
    (fetch : FetchOutcome) (net : NetOutcome) (cache : Option ApnsConfig)
    (device : Device) (_notification : PushNotification) :
    Option PushResult × Option ApnsConfig × Effects :=
  if device.platform ≠ "ios" then
    (some { success := false, error := some ("Non-iOS device") }, cache,
     { fetchedConfig := false, mintedToken := false, openedConnection := false })
  else
    let g := getApnsConfig fetch cache
    match g.1 with
    | none =>
      (some { success := false, error := some ("APNs not configured") }, g.2.1,
       { fetchedConfig := true, mintedToken := false, openedConnection := false })
    | some _ =>
      let eff : Effects :=
        { fetchedConfig := true, mintedToken := true, openedConnection := true }
      match net with
      | .connError m => (some { success := false, error := some m }, g.2.1, eff)
      | .reqError m => (some { success := false, error := some m }, g.2.1, eff)
      | .response status body => (classifyResponse parse status body, g.2.1, eff)

/-! ## Demo sequence orchestrator

The orchestrator schedules callbacks through setTimeout and setInterval
and mutates a module-level SequenceState. The event loop is modelled as a
list of pending (timer id, callback) entries; a fire event may run any
pending timer, which over-approximates the real delay-ordered schedule.
Injected callbacks act on an abstract external state E; every callback
invocation is also recorded in a ghost log, so that which callbacks ran
is visible in the model. generateDemoIncident and getRandomTeammate live
in a demo-data module and only their outputs matter here, so each fire
event carries the values they (and Math.random and Date.now) produce. -/

inductive Sev where
  | critical
  | warning
  | info
deriving DecidableEq, Repr

/-- The fields of a DemoIncident the orchestrator reads. -/
structure DemoIncident where
  incident_id : String
  state : String
  acked_at : Option Nat
deriving DecidableEq, Repr

inductive DemoAction where
  | add (inc : DemoIncident)
  | ack (id : String) (actor : String)
  | resolve (id : String)
  | play (sev : Sev)
  | complete
deriving DecidableEq, Repr

/-- The DemoSequenceCallbacks record, over an abstract external state. -/
structure Callbacks (E : Type) where
  addIncident : DemoIncident → E → E
  ackIncident : String → String → E → E
  resolveIncident : String → E → E
  playAlert : Sev → E → E
  onComplete : E → E
  getIncidents : E → List DemoIncident

structure SeqState where
  isRunning : Bool
  timeouts : List Nat
  intervals : List Nat
  incidentCount : Nat
  teammateAckCount : Nat
deriving DecidableEq, Repr

/-- The callback closure attached to each scheduled timer. -/
inductive Cb where
  | addFixed (sev : Sev)
  | addRand (p : ℚ)
  | tmAck
  | autoRes
  | sound (sev : Sev)
  | gameTick
  | timeUp
deriving DecidableEq, Repr

def Cb.isSound : Cb → Bool
  | .sound _ => true
  | _ => false

def Cb.isInterval : Cb → Bool
  | .gameTick => true
  | _ => false

/-- Whole-system state: the module-level SequenceState, the event loop's
pending timers, the timer-id supply, the external state and the ghost log. -/
structure Sys (E : Type) where
  seq : SeqState
  pending : List (Nat × Cb)
  nextId : Nat
  ext : E
  log : List DemoAction

/-- Values the nondeterministic calls of one callback run produce:
successive Math.random draws, Date.now, getRandomTeammate and
generateDemoIncident. -/
structure Oracle where
  q1 : ℚ
  q2 : ℚ
  q3 : ℚ
  now : Nat
  teammate : String
  inc : DemoIncident
deriving DecidableEq, Repr

variable {E : Type}

def doAdd (cbs : Callbacks E) (inc : DemoIncident) (s : Sys E) : Sys E :=
  { s with ext := cbs.addIncident inc s.ext, log := s.log ++ [DemoAction.add inc] }

def doAck (cbs : Callbacks E) (id actor : String) (s : Sys E) : Sys E :=
  { s with ext := cbs.ackIncident id actor s.ext, log := s.log ++ [DemoAction.ack id actor] }

def doResolve (cbs : Callbacks E) (id : String) (s : Sys E) : Sys E :=
  { s with ext := cbs.resolveIncident id s.ext, log := s.log ++ [DemoAction.resolve id] }

def doPlay (cbs : Callbacks E) (sev : Sev) (s : Sys E) : Sys E :=
  { s with ext := cbs.playAlert sev s.ext, log := s.log ++ [DemoAction.play sev] }

def doComplete (cbs : Callbacks E) (s : Sys E) : Sys E :=
  { s with ext := cbs.onComplete s.ext, log := s.log ++ [DemoAction.complete] }

/-- The untracked 50ms sound setTimeout inside addAndTrack. -/
def pushSound (sev : Sev) (s : Sys E) : Sys E :=
  { s with pending := s.pending ++ [(s.nextId, Cb.sound sev)], nextId := s.nextId + 1 }

/-- clearTimeout or clearInterval on one id. -/
def removePending (id : Nat) (s : Sys E) : Sys E :=
  { s with pending := s.pending.filter (fun p => p.1 != id) }

/-- scheduleAction: setTimeout plus push onto sequenceState.timeouts. -/
def scheduleTimeout (cb : Cb) (s : Sys E) : Sys E :=
  { s with pending := s.pending ++ [(s.nextId, cb)],
           seq := { s.seq with timeouts := s.seq.timeouts ++ [s.nextId] },
           nextId := s.nextId + 1 }

/-- setInterval plus push onto sequenceState.intervals. -/
def scheduleInterval (cb : Cb) (s : Sys E) : Sys E :=
  { s with pending := s.pending ++ [(s.nextId, cb)],
           seq := { s.seq with intervals := s.seq.intervals ++ [s.nextId] },
           nextId := s.nextId + 1 }

/-- addAndTrack: refuse when stopped or at ten incidents, otherwise add the
generated incident and schedule the untracked sound timer. The push onto
the local createdIncidents array is invisible to every claim and is not
modelled. -/
def addAndTrack (cbs : Callbacks E) (inc : DemoIncident) (sev : Sev) (s : Sys E) : Sys E :=
  if !s.seq.isRunning then s
  else if 10 ≤ (cbs.getIncidents s.ext).length then s
  else
    let s1 : Sys E :=
      { s with seq := { s.seq with incidentCount := s.seq.incidentCount + 1 } }
    pushSound sev (doAdd cbs inc s1)

/-- teammateAck: ack a random one of the (up to three) first triggered
incidents. The out-of-range arm is unreachable while q lies in [0, 1). -/
def teammateAck (cbs : Callbacks E) (q : ℚ) (tm : String) (s : Sys E) : Sys E :=
  if !s.seq.isRunning then s
  else
    let trig := (cbs.getIncidents s.ext).filter (fun i => i.state == "triggered")
    if trig.length = 0 then s
    else
      match trig[⌊q * ((min 3 trig.length : ℕ) : ℚ)⌋₊]? with
      | some inc =>
        let s1 := doAck cbs inc.incident_id tm s
        { s1 with seq := { s1.seq with teammateAckCount := s1.seq.teammateAckCount + 1 } }
      | none => s

/-- JavaScript Array.prototype.reduce of the oldest-acked picker: first
element as accumulator, fold over the rest. -/
def jsReduceOldest : List DemoIncident → Option DemoIncident
  | [] => none
  | h :: t =>
    some (t.foldl (fun a b => if a.acked_at.getD 0 < b.acked_at.getD 0 then a else b) h)

/-- autoResolve: resolve the oldest acked incident, when one exists. -/
def autoResolve (cbs : Callbacks E) (s : Sys E) : Sys E :=
  if !s.seq.isRunning then s
  else
    let acked := (cbs.getIncidents s.ext).filter (fun i => i.state == "acked")
    match jsReduceOldest acked with
    | none => s
    | some oldest => doResolve cbs oldest.incident_id s

def checkWinCondition (cbs : Callbacks E) (s : Sys E) : Bool :=
  let incidents := cbs.getIncidents s.ext
  let triggered := incidents.filter (fun i => i.state == "triggered")
  let acked := incidents.filter (fun i => i.state == "acked")
  decide (8 ≤ s.seq.incidentCount) && (triggered.length == 0) && (acked.length == 0)

/-- stopDemoSequence: clear the running flag, clearTimeout or
clearInterval every tracked timer, then empty both tracking arrays. -/
def stopDemoSequence (s : Sys E) : Sys E :=
  { s with
    seq := { s.seq with isRunning := false, timeouts := [], intervals := [] },
    pending := s.pending.filter (fun p =>
      !(s.seq.timeouts.contains p.1 || s.seq.intervals.contains p.1)) }

/-- The body of the game-loop interval. -/
def gameTick (cbs : Callbacks E) (o : Oracle) (selfId : Nat) (s : Sys E) : Sys E :=
  if !s.seq.isRunning then removePending selfId s
  else if checkWinCondition cbs s then doComplete cbs (stopDemoSequence s)
  else
    let incidents := cbs.getIncidents s.ext
    let triggered := incidents.filter (fun i => i.state == "triggered")
    let acked := incidents.filter (fun i => i.state == "acked")
    if incidents.length < 6 ∧ o.q1 < 2/5 then
      addAndTrack cbs o.inc
        (if o.q2 < 3/10 then .critical else if o.q3 < 1/2 then .warning else .info) s
    else if 3 < triggered.length ∧ o.q1 < 1/2 ∧ s.seq.teammateAckCount < 5 then
      teammateAck cbs o.q2 o.teammate s
    else if 0 < acked.length ∧ o.q1 < 3/5 then
      match jsReduceOldest acked with
      | none => s
      | some oldestAcked =>
        if oldestAcked.acked_at.getD 0 ≠ 0 ∧ 4000 < o.now - oldestAcked.acked_at.getD 0 then
          autoResolve cbs s
        else s
    else if triggered.length < 2 ∧ incidents.length < 8 ∧ o.q1 < 7/10 then
      addAndTrack cbs o.inc (if o.q2 < 1/2 then .critical else .warning) s
    else s

/-- The 60-second game-over timeout body. -/
def timeUp (cbs : Callbacks E) (s : Sys E) : Sys E :=
  if !s.seq.isRunning then s
  else doComplete cbs (stopDemoSequence s)

/-- Dispatch a fired callback. The sound callback re-checks isRunning
before playing. -/
def fireCb (cbs : Callbacks E) (o : Oracle) (selfId : Nat) : Cb → Sys E → Sys E
  | .addFixed sev => addAndTrack cbs o.inc sev
  | .addRand p => fun s =>
      addAndTrack cbs o.inc (if o.q1 < p then .critical else .warning) s
  | .tmAck => teammateAck cbs o.q1 o.teammate
  | .autoRes => autoResolve cbs
  | .sound sev => fun s => if s.seq.isRunning then doPlay cbs sev s else s
  | .gameTick => gameTick cbs o selfId
  | .timeUp => timeUp cbs

/-- Fire one timer: only pending timers can fire; a one-shot timeout is
consumed, an interval stays armed. -/
def fireTimer (cbs : Callbacks E) (o : Oracle) (id : Nat) (s : Sys E) : Sys E :=
  match s.pending.find? (fun p => p.1 == id) with
  | none => s
  | some p =>
    fireCb cbs o id p.2 (if p.2.isInterval then s else removePending id s)

/-- startDemoSequence: no-op when already running, otherwise reset the
counters, add the first warning synchronously, schedule the scripted
phases, the game-loop interval and the 60-second timeout. -/
def startDemoSequence (cbs : Callbacks E) (o : Oracle) (s : Sys E) : Sys E :=
  if s.seq.isRunning then s
  else
    let s0 : Sys E :=
      { s with seq := { s.seq with isRunning := true, incidentCount := 0,
                                   teammateAckCount := 0 } }
    let s1 := addAndTrack cbs o.inc .warning s0
    let s2 := scheduleTimeout (.addFixed .warning) s1
    let s3 := scheduleTimeout (.addFixed .warning) s2
    let s4 := scheduleTimeout (.addFixed .critical) s3
    let s5 := scheduleTimeout (.addFixed .critical) s4
    let s6 := scheduleTimeout (.addFixed .critical) s5
    let s7 := scheduleTimeout .tmAck s6
    let s8 := scheduleTimeout .tmAck s7
    let s9 := scheduleTimeout (.addRand (2/5)) s8
    let s10 := scheduleTimeout .autoRes s9
    let s11 := scheduleTimeout (.addRand (3/10)) s10
    let s12 := scheduleTimeout .tmAck s11
    let s13 := scheduleTimeout .autoRes s12
    let s14 := scheduleInterval .gameTick s13
    scheduleTimeout .timeUp s14

inductive DemoEvent where
  | start (o : Oracle)
  | fire (id : Nat) (o : Oracle)
deriving DecidableEq, Repr

def stepEvent (cbs : Callbacks E) : DemoEvent → Sys E → Sys E
  | .start o => startDemoSequence cbs o
  | .fire id o => fireTimer cbs o id

def runEvents (cbs : Callbacks E) : List DemoEvent → Sys E → Sys E
  | [], s => s
  | e :: rest, s => runEvents cbs rest (stepEvent cbs e s)

def applyFires (cbs : Callbacks E) : List (Nat × Oracle) → Sys E → Sys E
  | [], s => s
  | f :: rest, s => applyFires cbs rest (fireTimer cbs f.2 f.1 s)

def initSys (e0 : E) : Sys E :=
  { seq := { isRunning := false, timeouts := [], intervals := [],
             incidentCount := 0, teammateAckCount := 0 },
    pending := [], nextId := 0, ext := e0, log := [] }

/-- A pending timer id the sequence tracks for cancellation. -/
def trackedIn (s : Sys E) (id : Nat) : Prop :=
  id ∈ s.seq.timeouts ∨ id ∈ s.seq.intervals

/-- Every pending timer is either tracked or one of the untracked sound
timers. -/
def Inv (s : Sys E) : Prop :=
  ∀ p ∈ s.pending, trackedIn s p.1 ∨ p.2.isSound = true

/-- After a stop: not running and only sound timers can still be pending. -/
def Quiesced (s : Sys E) : Prop :=
  s.seq.isRunning = false ∧ ∀ p ∈ s.pending, p.2.isSound = true

/-! ### Invariant lemmas for the orchestrator -/

theorem inv_of_parts {s s' : Sys E} (hp : s'.pending = s.pending)
    (ht : s'.seq.timeouts = s.seq.timeouts)
    (hi : s'.seq.intervals = s.seq.intervals) (h : Inv s) : Inv s' := by
  intro p hmem
  rw [hp] at hmem
  rcases h p hmem with htr | hs
  · exact Or.inl (by rw [trackedIn, ht, hi]; exact htr)
  · exact Or.inr hs

theorem inv_of_quiesced {s : Sys E} (h : Quiesced s) : Inv s :=
  fun p hp => Or.inr (h.2 p hp)

theorem inv_pushSound {s : Sys E} {sev : Sev} (h : Inv s) : Inv (pushSound sev s) := by
  intro p hmem
  rcases List.mem_append.mp hmem with hold | hnew
  · rcases h p hold with htr | hs
    · exact Or.inl htr
    · exact Or.inr hs
  · rcases List.mem_singleton.mp hnew with rfl
    exact Or.inr rfl

theorem inv_removePending {s : Sys E} {id : Nat} (h : Inv s) :
    Inv (removePending id s) := by
  intro p hmem
  exact h p (List.mem_of_mem_filter hmem)

theorem inv_scheduleTimeout {s : Sys E} {cb : Cb} (h : Inv s) :
    Inv (scheduleTimeout cb s) := by
  intro p hmem
  rcases List.mem_append.mp hmem with hold | hnew
  · rcases h p hold with htr | hs
    · exact Or.inl (by
        rcases htr with ht | hi
        · exact Or.inl (List.mem_append_left _ ht)
        · exact Or.inr hi)
    · exact Or.inr hs
  · rcases List.mem_singleton.mp hnew with rfl
    exact Or.inl (Or.inl (List.mem_append_right _ (List.mem_singleton.mpr rfl)))

theorem inv_scheduleInterval {s : Sys E} {cb : Cb} (h : Inv s) :
    Inv (scheduleInterval cb s) := by
  intro p hmem
  rcases List.mem_append.mp hmem with hold | hnew
  · rcases h p hold with htr | hs
    · exact Or.inl (by
        rcases htr with ht | hi
        · exact Or.inl ht
        · exact Or.inr (List.mem_append_left _ hi))
    · exact Or.inr hs
  · rcases List.mem_singleton.mp hnew with rfl
    exact Or.inl (Or.inr (List.mem_append_right _ (List.mem_singleton.mpr rfl)))

theorem inv_addAndTrack {cbs : Callbacks E} {s : Sys E} {inc : DemoIncident}
    {sev : Sev} (h : Inv s) : Inv (addAndTrack cbs inc sev s) := by
  unfold addAndTrack
  split
  · exact h
  · split
    · exact h
    · exact inv_pushSound (inv_of_parts rfl rfl rfl h)

theorem teammateAck_parts {cbs : Callbacks E} {q : ℚ} {tm : String} {s : Sys E} :
    (teammateAck cbs q tm s).pending = s.pending ∧
    (teammateAck cbs q tm s).seq.timeouts = s.seq.timeouts ∧
    (teammateAck cbs q tm s).seq.intervals = s.seq.intervals := by
  unfold teammateAck
  split
  · exact ⟨rfl, rfl, rfl⟩
  · dsimp only
    split
    · exact ⟨rfl, rfl, rfl⟩
    · split <;> exact ⟨rfl, rfl, rfl⟩

theorem autoResolve_parts {cbs : Callbacks E} {s : Sys E} :
    (autoResolve cbs s).pending = s.pending ∧
    (autoResolve cbs s).seq.timeouts = s.seq.timeouts ∧
    (autoResolve cbs s).seq.intervals = s.seq.intervals := by
  unfold autoResolve
  split
  · exact ⟨rfl, rfl, rfl⟩
  · dsimp only
    split <;> exact ⟨rfl, rfl, rfl⟩

theorem inv_teammateAck {cbs : Callbacks E} {q : ℚ} {tm : String} {s : Sys E}
    (h : Inv s) : Inv (teammateAck cbs q tm s) :=
  inv_of_parts teammateAck_parts.1 teammateAck_parts.2.1 teammateAck_parts.2.2 h

theorem inv_autoResolve {cbs : Callbacks E} {s : Sys E} (h : Inv s) :
    Inv (autoResolve cbs s) :=
  inv_of_parts autoResolve_parts.1 autoResolve_parts.2.1 autoResolve_parts.2.2 h

theorem quiesced_stop {s : Sys E} (h : Inv s) : Quiesced (stopDemoSequence s) := by
  refine ⟨rfl, ?_⟩
  intro p hmem
  have hm := List.mem_filter.mp hmem
  rcases h p hm.1 with htr | hs
  · exfalso
    have hcond := hm.2
    simp at hcond
    rcases htr with ht | hi
    · exact hcond.1 ht
    · exact hcond.2 hi
  · exact hs

theorem inv_stop {s : Sys E} (h : Inv s) : Inv (stopDemoSequence s) :=
  inv_of_quiesced (quiesced_stop h)

theorem inv_timeUp {cbs : Callbacks E} {s : Sys E} (h : Inv s) :
    Inv (timeUp cbs s) := by
  unfold timeUp
  split
  · exact h
  · exact inv_of_parts rfl rfl rfl (inv_stop h)

theorem inv_gameTick {cbs : Callbacks E} {o : Oracle} {selfId : Nat} {s : Sys E}
    (h : Inv s) : Inv (gameTick cbs o selfId s) := by
  unfold gameTick
  split
  · exact inv_removePending h
  · split
    · exact inv_of_parts rfl rfl rfl (inv_stop h)
    · dsimp only
      split
      · exact inv_addAndTrack h
      · split
        · exact inv_teammateAck h
        · split
          · split
            · exact h
            · split
              · exact inv_autoResolve h
              · exact h
          · split
            · exact inv_addAndTrack h
            · exact h

theorem inv_fireTimer {cbs : Callbacks E} {o : Oracle} {id : Nat} {s : Sys E}
    (h : Inv s) : Inv (fireTimer cbs o id s) := by
  unfold fireTimer
  cases hfind : s.pending.find? (fun p => p.1 == id) with
  | none => exact h
  | some p =>
    have hs1 : Inv (if p.2.isInterval then s else removePending id s) := by
      split
      · exact h
      · exact inv_removePending h
    obtain ⟨pid, cb⟩ := p
    cases cb with
    | addFixed sev => exact inv_addAndTrack hs1
    | addRand pr => exact inv_addAndTrack hs1
    | tmAck => exact inv_teammateAck hs1
    | autoRes => exact inv_autoResolve hs1
    | sound sev =>
      have hs2 : Inv (removePending id s) := inv_removePending h
      show Inv (if (removePending id s).seq.isRunning = true
          then doPlay cbs sev (removePending id s) else removePending id s)
      split
      · exact inv_of_parts rfl rfl rfl hs2
      · exact hs2
    | gameTick => exact inv_gameTick hs1
    | timeUp => exact inv_timeUp hs1

theorem inv_startDemoSequence {cbs : Callbacks E} {o : Oracle} {s : Sys E}
    (h : Inv s) : Inv (startDemoSequence cbs o s) := by
  unfold startDemoSequence
  split
  · exact h
  · exact inv_scheduleTimeout (inv_scheduleInterval (inv_scheduleTimeout
      (inv_scheduleTimeout (inv_scheduleTimeout (inv_scheduleTimeout
      (inv_scheduleTimeout (inv_scheduleTimeout (inv_scheduleTimeout
      (inv_scheduleTimeout (inv_scheduleTimeout (inv_scheduleTimeout
      (inv_scheduleTimeout (inv_scheduleTimeout
      (inv_addAndTrack (inv_of_parts rfl rfl rfl h)))))))))))))))

theorem inv_stepEvent {cbs : Callbacks E} {e : DemoEvent} {s : Sys E}
    (h : Inv s) : Inv (stepEvent cbs e s) := by
  cases e with
  | start o => exact inv_startDemoSequence h
  | fire id o => exact inv_fireTimer h

theorem inv_runEvents {cbs : Callbacks E} {evs : List DemoEvent} {s : Sys E}
    (h : Inv s) : Inv (runEvents cbs evs s) := by
  induction evs generalizing s with
  | nil => exact h
  | cons e rest ih => exact ih (inv_stepEvent h)

theorem inv_initSys (e0 : E) : Inv (initSys e0) := by
  intro p hmem
  simp [initSys] at hmem

theorem isSound_eq_sound {cb : Cb} (h : cb.isSound = true) :
    ∃ sev, cb = Cb.sound sev := by
  cases cb <;> simp [Cb.isSound] at h
  exact ⟨_, rfl⟩

theorem quiesced_fireTimer {cbs : Callbacks E} {o : Oracle} {id : Nat}
    {s : Sys E} (h : Quiesced s) :
    (fireTimer cbs o id s).ext = s.ext ∧ (fireTimer cbs o id s).log = s.log ∧
    Quiesced (fireTimer cbs o id s) := by
  cases hfind : s.pending.find? (fun p => p.1 == id) with
  | none =>
    have heq : fireTimer cbs o id s = s := by
      unfold fireTimer
      rw [hfind]
    rw [heq]
    exact ⟨rfl, rfl, h⟩
  | some p =>
    have hmem : p ∈ s.pending := List.mem_of_find?_eq_some hfind
    have hsound : p.2.isSound = true := h.2 p hmem
    obtain ⟨pid, cb⟩ := p
    obtain ⟨sev, rfl⟩ := isSound_eq_sound hsound
    have hrun : ¬((removePending id s).seq.isRunning = true) := by
      show ¬(s.seq.isRunning = true)
      rw [h.1]
      simp
    have heq : fireTimer cbs o id s = removePending id s := by
      unfold fireTimer
      rw [hfind]
      show (if (removePending id s).seq.isRunning = true
          then doPlay cbs sev (removePending id s) else removePending id s) =
        removePending id s
      exact if_neg hrun
    rw [heq]
    refine ⟨rfl, rfl, h.1, ?_⟩
    intro p hp
    exact h.2 p (List.mem_of_mem_filter hp)

theorem quiesced_applyFires {cbs : Callbacks E} {post : List (Nat × Oracle)}
    {s : Sys E} (h : Quiesced s) :
    (applyFires cbs post s).ext = s.ext ∧ (applyFires cbs post s).log = s.log ∧
    Quiesced (applyFires cbs post s) := by
  induction post generalizing s with
  | nil => exact ⟨rfl, rfl, h⟩
  | cons f rest ih =>
    have h1 := @quiesced_fireTimer E cbs f.2 f.1 s h
    have h2 := ih h1.2.2
    exact ⟨h2.1.trans h1.1, h2.2.1.trans h1.2.1, h2.2.2⟩

/-! ## Concrete fixtures used by witnesses and counterexamples -/

def team0 : Team :=
  { team_id := "team-1", aws_account_ids := ["123456789012"] }

def slot0 : Schedule :=
  { team_id := "team-1", slot_id := "s1", user_id := "alice",
    start := 0, «end» := 2000000000000 }

def env0 : AlarmEnv :=
  { teams := [team0], schedules := fun _ => [slot0], now := 1700000000123,
    putFails := fun _ => false, uuid := "uuid-1" }

def mCritical : CloudWatchAlarmMessage :=
  { AlarmName := "API-Latency-Critical", AlarmArn := "arn:alarm:1",
    NewStateValue := "ALARM", NewStateReason := "threshold crossed",
    StateChangeTime := "2026-01-01", Region := "eu-west-1",
    AWSAccountId := "123456789012" }

def mOk : CloudWatchAlarmMessage :=
  { mCritical with NewStateValue := "OK" }

/-! ## Claim theorems: alarm ingestion -/

/-- Claim C4: determineSeverity is a pure function of the alarm name: it
returns critical when the lowercased name contains critical or error,
otherwise warning when it contains warning or warn, otherwise info; the
three example names map to critical, warning and info respectively. -/
theorem determineSeverity_correct (name : String) :
    ((strIncludes (lowerStr name) ("critical") ||
        strIncludes (lowerStr name) ("error")) = true →
      determineSeverity name = "critical") ∧
    ((strIncludes (lowerStr name) ("critical") ||
        strIncludes (lowerStr name) ("error")) = false →
      (strIncludes (lowerStr name) ("warning") ||
        strIncludes (lowerStr name) ("warn")) = true →
      determineSeverity name = "warning") ∧
    ((strIncludes (lowerStr name) ("critical") ||
        strIncludes (lowerStr name) ("error")) = false →
      (strIncludes (lowerStr name) ("warning") ||
        strIncludes (lowerStr name) ("warn")) = false →
      determineSeverity name = "info") ∧
    determineSeverity ("DB-Connections-Critical") = "critical" ∧
    determineSeverity ("Cache-Hit-Rate-Warning") = "warning" ∧
    determineSeverity ("Network-Saturation-Info") = "info" := by
  refine ⟨?_, ?_, ?_, by decide, by decide, by decide⟩
  · intro h
    unfold determineSeverity
    dsimp only
    rw [h]
    simp
  · intro h1 h2
    unfold determineSeverity
    dsimp only
    rw [h1, h2]
    simp
  · intro h1 h2
    unfold determineSeverity
    dsimp only
    rw [h1, h2]
    simp

/-- Witness for C4 at the first example name. -/
theorem determineSeverity_correct_witness :
    determineSeverity ("DB-Connections-Critical") = "critical" :=
  (determineSeverity_correct ("DB-Connections-Critical")).1 (by decide)

/-- Claim C6: a record whose NewStateValue is not ALARM is only logged: it
produces no store write, and the writes of the rest of the batch are
exactly what they would be without it. -/
theorem nonAlarm_no_write (env : AlarmEnv) (m : CloudWatchAlarmMessage)
    (pre post : List SnsRecord) (h : m.NewStateValue ≠ "ALARM") :
    recordStep env (SnsRecord.msg m) = RecordOutcome.ignoredState m.NewStateValue ∧
    writes env (pre ++ SnsRecord.msg m :: post) = writes env pre ++ writes env post := by
  have hstep : recordStep env (SnsRecord.msg m) =
      RecordOutcome.ignoredState m.NewStateValue := by
    simp [recordStep, processRecordCore, h]
  refine ⟨hstep, ?_⟩
  simp [writes, handler, hstep]

/-- Witness for C6 on a concrete OK record. -/
theorem nonAlarm_no_write_witness :
    recordStep env0 (SnsRecord.msg mOk) = RecordOutcome.ignoredState mOk.NewStateValue ∧
    writes env0 ([] ++ SnsRecord.msg mOk :: []) = writes env0 [] ++ writes env0 [] :=
  nonAlarm_no_write env0 mOk [] [] (by decide)

/-- A slot whose user_id is the empty string. -/
def slotEmpty : Schedule :=
  { team_id := "team-1", slot_id := "s1", user_id := "", start := 0, «end» := 100 }

/-- Counterexample to claim C7 as stated: at time 50 the slot [0, 100)
matches (start inclusive, end exclusive) and is the first match, yet
findOnCallUser returns none instead of the matching slot's user_id,
because the source collapses a falsy user_id with (slot?.user_id || null). -/
theorem findOnCallUser_counterexample :
    (slotEmpty.start ≤ 50 ∧ 50 < slotEmpty.«end») ∧
    findOnCallUser [slotEmpty] 50 = none ∧
    (some slotEmpty.user_id : Option String) ≠ none := by
  decide

/-- Claim C7 amended: the selected slot is a covering slot (start
inclusive, end exclusive) of the list; the first covering slot's user_id
is returned when it is non-empty; none is returned when the first covering
slot's user_id is empty, and when no slot covers atTime. -/
theorem findOnCallUser_correct (schedules : List Schedule) (now : Nat) :
    (∀ slot,
      (schedules.filter (fun s => s.start ≤ now && now < s.«end»)).head? = some slot →
      slot.start ≤ now ∧ now < slot.«end» ∧ slot ∈ schedules) ∧
    (∀ slot,
      (schedules.filter (fun s => s.start ≤ now && now < s.«end»)).head? = some slot →
      slot.user_id ≠ "" → findOnCallUser schedules now = some slot.user_id) ∧
    (∀ slot,
      (schedules.filter (fun s => s.start ≤ now && now < s.«end»)).head? = some slot →
      slot.user_id = "" → findOnCallUser schedules now = none) ∧
    ((∀ slot ∈ schedules, ¬(slot.start ≤ now ∧ now < slot.«end»)) →
      findOnCallUser schedules now = none) := by
  refine ⟨?_, ?_, ?_, ?_⟩
  · intro slot hhead
    have hmem : slot ∈ schedules.filter (fun s => s.start ≤ now && now < s.«end») := by
      cases hf : schedules.filter (fun s => s.start ≤ now && now < s.«end») with
      | nil => rw [hf] at hhead; exact absurd hhead (by simp)
      | cons a t =>
        rw [hf] at hhead
        simp at hhead
        subst hhead
        simp [hf]
    have hm := List.mem_filter.mp hmem
    have hcond := hm.2
    simp at hcond
    exact ⟨hcond.1, hcond.2, hm.1⟩
  · intro slot hhead hne
    unfold findOnCallUser
    dsimp only
    rw [hhead]
    show (if slot.user_id = "" then (none : Option String) else some slot.user_id) =
      some slot.user_id
    rw [if_neg hne]
  · intro slot hhead heq
    unfold findOnCallUser
    dsimp only
    rw [hhead]
    show (if slot.user_id = "" then (none : Option String) else some slot.user_id) = none
    rw [if_pos heq]
  · intro hnone
    unfold findOnCallUser
    dsimp only
    have hf : schedules.filter (fun s => s.start ≤ now && now < s.«end») = [] := by
      rw [List.filter_eq_nil_iff]
      intro a ha
      intro hc
      simp at hc
      exact hnone a ha ⟨hc.1, hc.2⟩
    rw [hf]
    rfl

/-- Witness for the amended C7 on a covering slot with non-empty user. -/
theorem findOnCallUser_correct_witness :
    findOnCallUser [slot0] 1000 = some slot0.user_id :=
  (findOnCallUser_correct [slot0] 1000).2.1 slot0 (by decide) (by decide)

/-- Claim C8: a fault on one record (parse throw, resolution miss turned
outcome, or a persistence throw) is caught: the handler maps every record
to an outcome independently, its output has one entry per record, and a
throw becomes a caught outcome instead of propagating. -/
theorem handler_fault_isolation (env : AlarmEnv) (pre post : List SnsRecord)
    (r : SnsRecord) (e : String) :
    (processRecordCore env r = Except.error e →
      recordStep env r = RecordOutcome.caught e) ∧
    handler env (pre ++ r :: post) =
      handler env pre ++ recordStep env r :: handler env post ∧
    (handler env (pre ++ r :: post)).length = pre.length + 1 + post.length := by
  refine ⟨?_, ?_, ?_⟩
  · intro h
    unfold recordStep
    rw [h]
  · simp [handler]
  · simp [handler]
    omega

/-- Witness for C8 on a malformed record. -/
theorem handler_fault_isolation_witness :
    recordStep env0 SnsRecord.malformed = RecordOutcome.caught ("JSON.parse") :=
  (handler_fault_isolation env0 [] [] SnsRecord.malformed ("JSON.parse")).1 rfl

/-- Counterexample to claim C3 as stated: on a concrete successfully
ingested alarm, the stored ttl is not triggered_at plus 24 hours in the
unit of triggered_at (milliseconds): the source stores epoch seconds. -/
theorem ttl_counterexample :
    recordStep env0 (SnsRecord.msg mCritical) =
      RecordOutcome.created (mkIncident env0 mCritical team0 ("alice")) ∧
    (mkIncident env0 mCritical team0 ("alice")).ttl ≠
      (mkIncident env0 mCritical team0 ("alice")).triggered_at + 24 * 60 * 60 * 1000 := by
  constructor
  · decide
  · decide

/-- Claim C3 amended: for every incident the ingestion handler creates,
ttl equals the trigger instant truncated to epoch seconds plus 24 hours
in seconds, while triggered_at stays in epoch milliseconds. -/
theorem ttl_is_seconds (env : AlarmEnv) (r : SnsRecord) (inc : Incident)
    (h : recordStep env r = RecordOutcome.created inc) :
    inc.ttl = inc.triggered_at / 1000 + 24 * 60 * 60 := by
  cases r with
  | malformed => simp [recordStep, processRecordCore] at h
  | msg m =>
    unfold recordStep processRecordCore at h
    dsimp only at h
    by_cases hstate : m.NewStateValue ≠ "ALARM"
    · rw [if_pos hstate] at h
      simp at h
    · rw [if_neg hstate] at h
      cases hteam : findTeamByAwsAccount env.teams m.AWSAccountId with
      | none => rw [hteam] at h; simp at h
      | some team =>
        rw [hteam] at h
        dsimp only at h
        cases honcall : findOnCallUser (env.schedules team.team_id) env.now with
        | none => rw [honcall] at h; simp at h
        | some uid =>
          rw [honcall] at h
          dsimp only at h
          by_cases hput : env.putFails (mkIncident env m team uid) = true
          · rw [if_pos hput] at h
            simp at h
          · rw [if_neg hput] at h
            simp at h
            rw [← h]
            rfl

/-- Witness for the amended C3 on the concrete ingested alarm. -/
theorem ttl_is_seconds_witness :
    (mkIncident env0 mCritical team0 ("alice")).ttl =
      (mkIncident env0 mCritical team0 ("alice")).triggered_at / 1000 + 24 * 60 * 60 :=
  ttl_is_seconds env0 (SnsRecord.msg mCritical)
    (mkIncident env0 mCritical team0 ("alice")) (by decide)

/-! ## Claim theorems: push delivery -/

def parseNone : String → Option ParsedBody := fun _ => none

def cfgA : ApnsConfig :=
  { key := "pem", keyId := "KEY1", teamId := "TEAM1", bundleId := "com.example.app" }

def devIos : Device :=
  { user_id := "u1", device_token := "tok-1", platform := "ios",
    sandbox := false, created_at := 0 }

def devAndroid : Device :=
  { user_id := "u1", device_token := "tok-2", platform := "android",
    sandbox := false, created_at := 0 }

def notif0 : PushNotification :=
  { title := "Pip-Alert Test", body := "Push notifications are working",
    sound := none, interruptionLevel := none, badge := none }

/-- Claim C5: a non-iOS device yields an immediate Non-iOS device failure:
the cache is untouched and no credential fetch, token mint or connection
happens. -/
theorem sendPush_nonIos (parse : String → Option ParsedBody)
    (fetch : FetchOutcome) (net : NetOutcome) (cache : Option ApnsConfig)
    (device : Device) (notif : PushNotification)
    (h : device.platform ≠ "ios") :
    sendPushNotification parse fetch net cache device notif =
      (some { success := false, error := some ("Non-iOS device") }, cache,
       { fetchedConfig := false, mintedToken := false, openedConnection := false }) := by
  unfold sendPushNotification
  rw [if_pos h]

/-- Witness for C5 on an android device. -/
theorem sendPush_nonIos_witness :
    sendPushNotification parseNone FetchOutcome.err (NetOutcome.response 200 (""))
      none devAndroid notif0 =
      (some { success := false, error := some ("Non-iOS device") }, none,
       { fetchedConfig := false, mintedToken := false, openedConnection := false }) :=
  sendPush_nonIos parseNone FetchOutcome.err (NetOutcome.response 200 (""))
    none devAndroid notif0 (by decide)

/-- Claim C9: the credential cache never stores a failure: a failed or
empty retrieval returns null with the cache still empty (so the next call
contacts the store again), a successful retrieval fills the cache, and
once filled every later call returns the cached value without contacting
the store. -/
theorem getApnsConfig_cache_correct :
    (∀ f : FetchOutcome, (∀ cfg, f ≠ FetchOutcome.secret cfg) →
      getApnsConfig f none = (none, none, true)) ∧
    (∀ cfg, getApnsConfig (FetchOutcome.secret cfg) none = (some cfg, some cfg, true)) ∧
    (∀ cfg fs, ∀ p ∈ runConfigCalls (some cfg) fs, p = (some cfg, false)) := by
  refine ⟨?_, ?_, ?_⟩
  · intro f hf
    cases f with
    | err => rfl
    | noSecret => rfl
    | badJson => rfl
    | secret cfg => exact absurd rfl (hf cfg)
  · intro cfg
    rfl
  · intro cfg fs
    induction fs with
    | nil => intro p hp; exact absurd hp (by simp [runConfigCalls])
    | cons f rest ih =>
      intro p hp
      rcases List.mem_cons.mp hp with heq | hmem
      · exact heq
      · exact ih p hmem

/-- Witness for C9: a failed first call, then caching after a success. -/
theorem getApnsConfig_cache_correct_witness :
    getApnsConfig FetchOutcome.err none = (none, none, true) ∧
    ((some cfgA, false) : Option ApnsConfig × Bool) = (some cfgA, false) :=
  ⟨getApnsConfig_cache_correct.1 FetchOutcome.err
      (fun cfg h => FetchOutcome.noConfusion h),
   getApnsConfig_cache_correct.2.2 cfgA [FetchOutcome.badJson] (some cfgA, false)
      (by simp [runConfigCalls, getApnsConfig])⟩

/-- Counterexample to claim C1 as stated: an iOS delivery with configured
credentials whose gateway response has a non-200 status and an empty body
produces no classification at all — the response handler only logs on
non-200 and the end handler only resolves when responseData is non-empty,
so the promise never settles. -/
theorem sendPush_counterexample :
    devIos.platform = "ios" ∧
    (sendPushNotification parseNone FetchOutcome.err (NetOutcome.response 410 (""))
      (some cfgA) devIos notif0).1 = none := by
  decide

/-- Claim C1 amended: with an iOS device and configured credentials the
result of a gateway response is classifyResponse: status 200 resolves
success; a non-200 status with non-empty body resolves failure with the
parsed reason when present and non-empty, the fixed Unknown error text
when the body parses without a usable reason, and the raw body when
parsing fails; a non-200 status with empty body resolves nothing. -/
theorem sendPush_classification (parse : String → Option ParsedBody)
    (fetch : FetchOutcome) (cache : Option ApnsConfig) (device : Device)
    (notif : PushNotification) (st : Nat) (body : String) (cfg : ApnsConfig)
    (hios : device.platform = "ios")
    (hcfg : (getApnsConfig fetch cache).1 = some cfg) :
    ((sendPushNotification parse fetch (NetOutcome.response st body) cache
        device notif).1 = classifyResponse parse st body) ∧
    (st = 200 →
      classifyResponse parse st body = some { success := true, error := none }) ∧
    (st ≠ 200 → body ≠ "" → parse body = none →
      classifyResponse parse st body = some { success := false, error := some body }) ∧
    (∀ p r0, st ≠ 200 → body ≠ "" → parse body = some p → p.reason = some r0 →
      r0 ≠ "" →
      classifyResponse parse st body = some { success := false, error := some r0 }) ∧
    (∀ p, st ≠ 200 → body ≠ "" → parse body = some p →
      (p.reason = none ∨ p.reason = some "") →
      classifyResponse parse st body =
        some { success := false, error := some ("Unknown error") }) ∧
    (st ≠ 200 → body = "" → classifyResponse parse st body = none) := by
  refine ⟨?_, ?_, ?_, ?_, ?_, ?_⟩
  · unfold sendPushNotification
    rw [if_neg (fun hne => hne hios)]
    dsimp only
    rw [hcfg]
  · intro h200
    unfold classifyResponse
    rw [if_pos h200]
  · intro hst hbody hparse
    unfold classifyResponse
    rw [if_neg hst, if_pos hbody, hparse]
  · intro p r0 hst hbody hparse hreason hr0
    unfold classifyResponse
    rw [if_neg hst, if_pos hbody, hparse]
    dsimp only
    unfold jsOrElse
    rw [hreason]
    dsimp only
    rw [if_neg hr0]
  · intro p hst hbody hparse hreason
    unfold classifyResponse
    rw [if_neg hst, if_pos hbody, hparse]
    dsimp only
    unfold jsOrElse
    rcases hreason with hn | he
    · rw [hn]
    · rw [he]
      dsimp only
      rw [if_pos rfl]
  · intro hst hbody
    unfold classifyResponse
    rw [if_neg hst, if_neg (by rw [hbody]; exact fun hne => hne rfl)]

/-- Witness for the amended C1: a 404 with an unparseable body surfaces
the raw body. -/
theorem sendPush_classification_witness :
    (sendPushNotification parseNone FetchOutcome.err (NetOutcome.response 404 ("bad"))
      (some cfgA) devIos notif0).1 =
      some { success := false, error := some ("bad") } := by
  have h := sendPush_classification parseNone FetchOutcome.err (some cfgA) devIos
    notif0 404 ("bad") cfgA (by decide) (by decide)
  rw [h.1]
  exact h.2.2.1 (by decide) (by decide) rfl

/-! ## Claim theorems: demo orchestrator -/

theorem foldl_oldest_mem (t : List DemoIncident) (a : DemoIncident) :
    t.foldl (fun x y => if x.acked_at.getD 0 < y.acked_at.getD 0 then x else y) a ∈
      a :: t := by
  induction t generalizing a with
  | nil => exact List.mem_singleton.mpr rfl
  | cons b t ih =>
    rw [List.foldl_cons]
    have hmem := ih (if a.acked_at.getD 0 < b.acked_at.getD 0 then a else b)
    rcases List.mem_cons.mp hmem with heq | hmemt
    · rw [heq]
      split
      · exact List.mem_cons_self _ _
      · exact List.mem_cons_of_mem _ (List.mem_cons_self _ _)
    · exact List.mem_cons_of_mem _ (List.mem_cons_of_mem _ hmemt)

theorem jsReduceOldest_mem {l : List DemoIncident} {x : DemoIncident}
    (h : jsReduceOldest l = some x) : x ∈ l := by
  cases l with
  | nil => exact absurd h (by simp [jsReduceOldest])
  | cons a t =>
    have hx := Option.some.inj h
    rw [← hx]
    exact foldl_oldest_mem t a

def incTriggered : DemoIncident :=
  { incident_id := "demo-1", state := "triggered", acked_at := none }

def cbsTen : Callbacks Nat :=
  { addIncident := fun _ n => n + 1, ackIncident := fun _ _ n => n,
    resolveIncident := fun _ n => n, playAlert := fun _ n => n,
    onComplete := fun n => n, getIncidents := fun _ => List.replicate 10 incTriggered }

/-- Claim C10: teammateAck only ever acks an incident that is currently
triggered, autoResolve only ever resolves an incident that is currently
acked (so neither acts on a resolved incident), and addAndTrack does
nothing when the incident list already holds ten or more. -/
theorem demo_actions_forward (E : Type) (cbs : Callbacks E) (s : Sys E)
    (q : ℚ) (tm : String) (inc0 : DemoIncident) (sev : Sev)
    (hq0 : 0 ≤ q) (hq1 : q < 1) :
    ((teammateAck cbs q tm s).log = s.log ∨
      ∃ i, i ∈ cbs.getIncidents s.ext ∧ i.state = "triggered" ∧
        i.state ≠ "resolved" ∧
        (teammateAck cbs q tm s).log = s.log ++ [DemoAction.ack i.incident_id tm]) ∧
    ((autoResolve cbs s).log = s.log ∨
      ∃ i, i ∈ cbs.getIncidents s.ext ∧ i.state = "acked" ∧
        i.state ≠ "resolved" ∧
        (autoResolve cbs s).log = s.log ++ [DemoAction.resolve i.incident_id]) ∧
    (10 ≤ (cbs.getIncidents s.ext).length → addAndTrack cbs inc0 sev s = s) := by
  refine ⟨?_, ?_, ?_⟩
  · unfold teammateAck
    split
    · exact Or.inl rfl
    · dsimp only
      split
      · exact Or.inl rfl
      · rename_i hlen
        set trig := (cbs.getIncidents s.ext).filter (fun i => i.state == "triggered")
          with htrig
        have hpos : 0 < min 3 trig.length :=
          lt_min (by norm_num) (Nat.pos_of_ne_zero hlen)
        have hcast : (0 : ℚ) < ((min 3 trig.length : ℕ) : ℚ) := by
          exact_mod_cast hpos
        have hlt : q * ((min 3 trig.length : ℕ) : ℚ) <
            ((min 3 trig.length : ℕ) : ℚ) := by
          calc q * ((min 3 trig.length : ℕ) : ℚ) <
              1 * ((min 3 trig.length : ℕ) : ℚ) :=
                mul_lt_mul_of_pos_right hq1 hcast
            _ = ((min 3 trig.length : ℕ) : ℚ) := one_mul _
        have hfloor : ⌊q * ((min 3 trig.length : ℕ) : ℚ)⌋₊ < min 3 trig.length := by
          rw [Nat.floor_lt (mul_nonneg hq0 hcast.le)]
          exact_mod_cast hlt
        have hidx : ⌊q * ((min 3 trig.length : ℕ) : ℚ)⌋₊ < trig.length :=
          lt_of_lt_of_le hfloor (min_le_right 3 _)
        rw [List.getElem?_eq_getElem hidx]
        dsimp only
        right
        refine ⟨trig[⌊q * ((min 3 trig.length : ℕ) : ℚ)⌋₊], ?_, ?_, ?_, rfl⟩
        · have hmf := List.mem_filter.mp (trig.getElem_mem hidx)
          exact hmf.1
        · have hmf := List.mem_filter.mp (trig.getElem_mem hidx)
          simpa using hmf.2
        · have hmf := List.mem_filter.mp (trig.getElem_mem hidx)
          have hst : trig[⌊q * ((min 3 trig.length : ℕ) : ℚ)⌋₊].state = "triggered" := by
            simpa using hmf.2
          rw [hst]
          decide
  · unfold autoResolve
    split
    · exact Or.inl rfl
    · dsimp only
      cases hred : jsReduceOldest
          ((cbs.getIncidents s.ext).filter (fun i => i.state == "acked")) with
      | none => exact Or.inl rfl
      | some oldest =>
        right
        have hmf := List.mem_filter.mp (jsReduceOldest_mem hred)
        have hst : oldest.state = "acked" := by simpa using hmf.2
        refine ⟨oldest, hmf.1, hst, ?_, rfl⟩
        rw [hst]
        decide
  · intro hcap
    unfold addAndTrack
    split
    · rfl
    · rfl

/-- Witness for C10: at the ten-incident cap addAndTrack is the identity. -/
theorem demo_actions_forward_witness :
    addAndTrack cbsTen incTriggered Sev.warning (initSys 0) = initSys 0 :=
  (demo_actions_forward Nat cbsTen (initSys 0) 0 ("bob") incTriggered Sev.warning
    (le_refl 0) (by norm_num)).2.2 (by decide)

def orc0 : Oracle :=
  { q1 := 0, q2 := 0, q3 := 0, now := 0, teammate := "bob", inc := incTriggered }

def cbsW : Callbacks Nat :=
  { addIncident := fun _ n => n + 1, ackIncident := fun _ _ n => n + 10,
    resolveIncident := fun _ n => n + 100, playAlert := fun _ n => n + 1000,
    onComplete := fun n => n + 10000, getIncidents := fun _ => [] }

/-- Claim C2: from any state the orchestrator can reach (any sequence of
start and timer-fire events from the idle initial state),
stopDemoSequence cancels every timer tracked in sequenceState.timeouts
and sequenceState.intervals (none of them is pending afterwards), and no
timer fired after stop has any observable effect: the external state and
the callback log are unchanged by any further fires — the only timers
that can still fire are the untracked sound timeouts, whose callback
re-checks isRunning and does nothing. -/
theorem stop_cancels_and_silences (E : Type) (cbs : Callbacks E) (e0 : E)
    (pre : List DemoEvent) (post : List (Nat × Oracle)) :
    (∀ p ∈ (stopDemoSequence (runEvents cbs pre (initSys e0))).pending,
      p.1 ∉ (runEvents cbs pre (initSys e0)).seq.timeouts ∧
      p.1 ∉ (runEvents cbs pre (initSys e0)).seq.intervals) ∧
    (applyFires cbs post (stopDemoSequence (runEvents cbs pre (initSys e0)))).ext =
      (stopDemoSequence (runEvents cbs pre (initSys e0))).ext ∧
    (applyFires cbs post (stopDemoSequence (runEvents cbs pre (initSys e0)))).log =
      (stopDemoSequence (runEvents cbs pre (initSys e0))).log := by
  have hinv : Inv (runEvents cbs pre (initSys e0)) :=
    inv_runEvents (inv_initSys e0)
  have hq : Quiesced (stopDemoSequence (runEvents cbs pre (initSys e0))) :=
    quiesced_stop hinv
  refine ⟨?_, (quiesced_applyFires hq).1, (quiesced_applyFires hq).2.1⟩
  intro p hp
  have hm := List.mem_filter.mp hp
  have hcond := hm.2
  simp at hcond
  exact hcond

/-- Witness for C2: after one start, the stop leaves only the untracked
sound timer pending, and firing it changes nothing. -/
theorem stop_cancels_and_silences_witness :
    ((0 : Nat) ∉ (runEvents cbsW [DemoEvent.start orc0] (initSys 0)).seq.timeouts ∧
     (0 : Nat) ∉ (runEvents cbsW [DemoEvent.start orc0] (initSys 0)).seq.intervals) ∧
    (applyFires cbsW [(0, orc0)]
        (stopDemoSequence (runEvents cbsW [DemoEvent.start orc0] (initSys 0)))).ext =
      (stopDemoSequence (runEvents cbsW [DemoEvent.start orc0] (initSys 0))).ext := by
  have h := stop_cancels_and_silences Nat cbsW 0 [DemoEvent.start orc0] [(0, orc0)]
  exact ⟨h.1 (0, Cb.sound Sev.warning) (by decide), h.2.1⟩

end PipAlert
